import Mathlib

/-!
Verification of the nearest-grid-point resolver in
`src/dmidc/harmonie/utils.py` (functions `cache_to_pickle`, `_wrap_lon`,
`sel_nearest_to_latlon_pt`).

Modelling conventions:
* Python floats are modelled as rationals (`ℚ`); the arithmetic performed by
  the code (adding and subtracting 360, comparisons, subtracting an offset)
  is exact on the values the claims are about.
* The `while` loop of `_wrap_lon` is embedded as a fuel-indexed step function
  `wrapLonGo`; `none` means the fuel ran out before the loop finished, so
  termination statements are real theorems about the loop.
* Python exceptions are values of `PyErr`; each constructor corresponds to
  one `raise` site (or implicit exception site) of the source.  The spec's
  taxonomy maps onto them as follows: `MissingIdentifierError` is the
  `ValueError` raised at utils.py:90, `InvalidArgumentError` is the
  `TypeError` raised at utils.py:93, and `OutOfBoundsError` covers the three
  `ValueError`s raised at utils.py:55/61 (inside `_wrap_lon`), utils.py:122
  and utils.py:128.
* The two caches (the process-wide `LOOKUP_INFO` dict and the pickle files
  under `FP_LOOKUP_INFO_ROOT`) are threaded explicitly as `CacheState`,
  together with two instrumentation counters (`buildCount` counts calls of
  the undecorated `build_tree` body, `diskReads` counts pickle loads); the
  counters do not influence any computed value.
* 2-D numpy arrays are `Arr2` (a rectangular list of rows carrying its
  shape).  `xarray`'s `ds.isel(x=i, y=j)` selects by dimension *name*, so a
  `Dataset` records (field `dimsXY`) whether the stored arrays have
  dimension order `(x, y)` or `(y, x)`.
* `scipy.spatial.cKDTree.query` is modelled as `queryNearest`: the index of
  a point of the flattened point list minimising the squared Euclidean
  distance (first such index on ties).
-/

set_option allowUnsafeReducibility true
attribute [local semireducible] Rat.add Rat.sub Rat.mul Rat.inv Rat.div

/-- Python exception raised by the code; one constructor per raise site of
`src/dmidc/harmonie/utils.py`. -/
inductive PyErr where
  /-- ValueError at utils.py:90 (dataset lacks the `suite_name` attribute). -/
  | missingSuiteName
  /-- TypeError at utils.py:93 (`pt` is not a dict). -/
  | ptNotDict
  /-- KeyError from `pt["lon"]` / `pt["lat"]` at utils.py:95. -/
  | keyError
  /-- ValueError raised inside `_wrap_lon` (utils.py:55 and utils.py:61). -/
  | wrapOutOfBounds
  /-- ValueError at utils.py:122 (`wrap_lon=False` and longitude out of bounds). -/
  | lonOutOfBounds
  /-- ValueError at utils.py:128 (latitude out of bounds). -/
  | latOutOfBounds
  /-- UnboundLocalError at utils.py:132: `lon_wrapped` is only assigned in the
  `wrap_lon=True` branch (utils.py:118). -/
  | unboundLocalLonWrapped
  /-- IndexError from `ds.isel(x=i, y=j)` when an index exceeds the dimension size. -/
  | indexError
  deriving DecidableEq, Repr

deriving instance DecidableEq for Except

/-- Spec-level `OutOfBoundsError`: the three ValueError sites about bounds. -/
def PyErr.isOutOfBounds : PyErr → Bool
  | .wrapOutOfBounds => true
  | .lonOutOfBounds => true
  | .latOutOfBounds => true
  | _ => false

/-- A rectangular 2-D array of rationals (a numpy array of shape `(d1, d2)`). -/
structure Arr2 where
  d1 : Nat
  d2 : Nat
  entries : List (List ℚ)
  hlen : entries.length = d1
  hrow : ∀ r ∈ entries, r.length = d2

/-- Row-major flattening, `arr.flatten()` in numpy. -/
def Arr2.flat (a : Arr2) : List ℚ := a.entries.flatten

/-- Element lookup `a[r, c]`; `none` when out of range (numpy IndexError). -/
def Arr2.at? (a : Arr2) (r c : Nat) : Option ℚ :=
  (a.entries.get? r).bind (fun row => row.get? c)

/-- Minimum of a list of values, `arr.min()` (0 for the empty array, which in
numpy would raise; the claims only evaluate it on nonempty grids). -/
def listMin : List ℚ → ℚ
  | [] => 0
  | x :: xs => xs.foldl min x

/-- Maximum of a list of values, `arr.max()`. -/
def listMax : List ℚ → ℚ
  | [] => 0
  | x :: xs => xs.foldl max x

/-- A gridded Harmonie dataset as consumed by `sel_nearest_to_latlon_pt`:
the `suite_name` attribute (`ds.attrs.get("suite_name")`), the 2-D `lon` and
`lat` coordinate arrays (identical shape, per the data model), and the order
of their named dimensions: `dimsXY = true` means the stored arrays are
indexed `[x][y]`, `dimsXY = false` means `[y][x]`. -/
structure Dataset where
  suite_name : Option String
  dimsXY : Bool
  lon : Arr2
  lat : Arr2
  hd1 : lon.d1 = lat.d1
  hd2 : lon.d2 = lat.d2

/-- Selection by dimension name, `ds.lon` after `ds.isel(x=i, y=j)`. -/
def Dataset.iselLon (ds : Dataset) (i j : Nat) : Option ℚ :=
  if ds.dimsXY then ds.lon.at? i j else ds.lon.at? j i

/-- Selection by dimension name, `ds.lat` after `ds.isel(x=i, y=j)`. -/
def Dataset.iselLat (ds : Dataset) (i j : Nat) : Option ℚ :=
  if ds.dimsXY then ds.lat.at? i j else ds.lat.at? j i

/-- The cached artifact built by `build_tree` (utils.py:98-106): the KD-tree's
point set (the zipped row-major flattenings of `lon` and `lat`) and the
lat/lon bounding boxes. -/
structure LookupInfo where
  pts : List (ℚ × ℚ)
  latBounds : ℚ × ℚ
  lonBounds : ℚ × ℚ
  deriving DecidableEq, Repr

/-- Body of `build_tree` (utils.py:98-106), before any caching. -/
def buildTree (ds : Dataset) : LookupInfo :=
  { pts := List.zip ds.lon.flat ds.lat.flat
    latBounds := (listMin ds.lat.flat, listMax ds.lat.flat)
    lonBounds := (listMin ds.lon.flat, listMax ds.lon.flat) }

/-- The two caches of the module plus call-count instrumentation:
`mem` is the process-wide `LOOKUP_INFO` dict, `disk` the pickle files under
`FP_LOOKUP_INFO_ROOT`.  `buildCount` counts executions of the undecorated
`build_tree` body, `diskReads` counts pickle loads; neither influences any
computed value. -/
structure CacheState where
  mem : List (String × LookupInfo)
  disk : List (String × LookupInfo)
  buildCount : Nat
  diskReads : Nat
  deriving DecidableEq, Repr

/-- The empty cache state of a fresh process with no pickle files. -/
def CacheState.empty : CacheState := { mem := [], disk := [], buildCount := 0, diskReads := 0 }

/-- The decorated `build_tree` (i.e. `cache_to_pickle(identifier)` applied to
it, utils.py:20-29): return the pickled entry when one exists, otherwise run
the body, persist its result, and return it. -/
def build_tree_cached (ds : Dataset) (identifier : String) (st : CacheState) :
    LookupInfo × CacheState :=
  match st.disk.lookup identifier with
  | some info => (info, { st with diskReads := st.diskReads + 1 })
  | none =>
    let r := buildTree ds
    (r, { st with buildCount := st.buildCount + 1, disk := (identifier, r) :: st.disk })

/-- The in-memory tier (utils.py:108-112): a `LOOKUP_INFO` hit short-circuits
everything; otherwise the decorated `build_tree` runs and its result is
stored into `LOOKUP_INFO`. -/
def getLookupInfo (ds : Dataset) (identifier : String) (st : CacheState) :
    LookupInfo × CacheState :=
  match st.mem.lookup identifier with
  | some info => (info, st)
  | none =>
    let p := build_tree_cached ds identifier st
    (p.1, { p.2 with mem := (identifier, p.1) :: p.2.mem })

/-- Squared Euclidean distance in raw (lon, lat) space. -/
def sqDist (p q : ℚ × ℚ) : ℚ := (p.1 - q.1) ^ 2 + (p.2 - q.2) ^ 2

/-- Scan for the index of a closest point, keeping the first-seen minimum. -/
def queryNearestAux (q : ℚ × ℚ) : List (ℚ × ℚ) → Nat → Nat → ℚ → Nat
  | [], _, best, _ => best
  | p :: rest, i, best, bestD =>
    if sqDist p q < bestD then queryNearestAux q rest (i + 1) i (sqDist p q)
    else queryNearestAux q rest (i + 1) best bestD

/-- Model of `scipy.spatial.cKDTree(pts).query(q)` (utils.py:132): the flat
index of a nearest point (lowest index on ties); 0 for an empty point set. -/
def queryNearest (pts : List (ℚ × ℚ)) (q : ℚ × ℚ) : Nat :=
  match pts with
  | [] => 0
  | p :: rest => queryNearestAux q rest 1 0 (sqDist p q)

/-- One fuel-indexed unfolding of the `while` loop of `_wrap_lon`
(utils.py:47-64), carrying the current longitude and the accumulated
`applied_rotation`.  `none` means the fuel was exhausted before the loop
finished; `some (.error _)` is the `raise ValueError` inside the loop;
`some (.ok (lon, rot))` is the `return lon, applied_rotation`. -/
def wrapLonGo (a b : ℚ) : Nat → ℚ → ℚ → Option (Except PyErr (ℚ × ℚ))
  | 0, _, _ => none
  | fuel + 1, lon, rot =>
    if lon < a ∨ b < lon then
      if lon < a then
        if rot < 0 then some (.error .wrapOutOfBounds)
        else wrapLonGo a b fuel (lon + 360) (rot + 360)
      else
        if 0 < rot then some (.error .wrapOutOfBounds)
        else wrapLonGo a b fuel (lon - 360) (rot - 360)
    else some (.ok (lon, rot))

/-- Number of 360-steps needed to move a (positive) distance `d`. -/
def wrapSteps (d : ℚ) : Nat := (Int.toNat (Int.ceil (d / 360)))

/-- Fuel that always suffices for the loop of `_wrap_lon` to finish
(proved below as part of the termination claims). -/
def fuelFor (lon a b : ℚ) : Nat := wrapSteps (a - lon) + wrapSteps (lon - b) + 1

/-- The function `_wrap_lon(lon, (a, b))` of utils.py:36-64: run the loop
with (provably sufficient) fuel; the `getD` default is unreachable. -/
def _wrap_lon (lon a b : ℚ) : Except PyErr (ℚ × ℚ) :=
  (wrapLonGo a b (fuelFor lon a b) lon 0).getD (.error .wrapOutOfBounds)

/-- Result of a successful `sel_nearest_to_latlon_pt` call: the slice indices
passed to `ds.isel(x=i, y=j)` and the lon/lat coordinate values of the
returned single-point dataset (after the wrap-offset correction of
utils.py:139-140 for `lon`). -/
structure SelResult where
  x : Nat
  y : Nat
  lonVal : ℚ
  latVal : ℚ
  deriving DecidableEq, Repr

/-- A Python value passed as the `pt` argument: either a dict mapping string
keys to floats, or any non-dict object. -/
inductive PyVal where
  | dict (kvs : List (String × ℚ))
  | other
  deriving DecidableEq, Repr

/-- Longitude handling of `sel_nearest_to_latlon_pt` (utils.py:117-124): for
`wrap_lon=True` the `_wrap_lon` call, for `wrap_lon=False` the plain bounds
check.  The `Option` payload models the local variable `lon_wrapped`, which
the source assigns only in the `wrap_lon=True` branch: `none` at its use
site (utils.py:132) is Python's `UnboundLocalError`. -/
def wrapOrCheck (info : LookupInfo) (lonq : ℚ) (wrap_lon : Bool) :
    Except PyErr (Option (ℚ × ℚ)) :=
  if wrap_lon then
    match _wrap_lon lonq info.lonBounds.1 info.lonBounds.2 with
    | .error e => .error e
    | .ok wa => .ok (some wa)
  else
    if lonq < info.lonBounds.1 ∨ info.lonBounds.2 < lonq then .error .lonOutOfBounds
    else .ok none

/-- The tail of `sel_nearest_to_latlon_pt` (utils.py:117-142), after the
lookup info has been obtained: longitude wrapping or bounds check, latitude
bounds check, nearest-point query, flat-index inversion, slice, and the
wrap-offset correction of utils.py:139-140. -/
def selQuery (ds : Dataset) (info : LookupInfo) (lonq latq : ℚ) (wrap_lon : Bool)
    (st1 : CacheState) : Except PyErr SelResult × CacheState :=
  match wrapOrCheck info lonq wrap_lon with
  | .error e => (.error e, st1)
  | .ok w? =>
    if latq < info.latBounds.1 ∨ info.latBounds.2 < latq then (.error .latOutOfBounds, st1)
    else
      match w? with
      | none => (.error .unboundLocalLonWrapped, st1)
      | some wa =>
        let k := queryNearest info.pts (wa.1, latq)
        let i := k % ds.lon.d2
        let j := k / ds.lon.d2
        match ds.iselLon i j, ds.iselLat i j with
        | some lonSel, some latSel =>
          (.ok { x := i, y := j
                 lonVal := if wrap_lon then lonSel - wa.2 else lonSel
                 latVal := latSel }, st1)
        | some _, none => (.error .indexError, st1)
        | none, _ => (.error .indexError, st1)

/-- The function `sel_nearest_to_latlon_pt(ds, pt, wrap_lon)` of
utils.py:67-142, threading the caches explicitly.  Validation order follows
the source: `suite_name` first, then the `isinstance(pt, dict)` check, then
the `pt["lon"]` / `pt["lat"]` accesses, then cache lookup / build, then the
bounds handling and query of `selQuery`. -/
def sel_nearest_to_latlon_pt (ds : Dataset) (pt : PyVal) (wrap_lon : Bool)
    (st : CacheState) : Except PyErr SelResult × CacheState :=
  match ds.suite_name with
  | none => (.error .missingSuiteName, st)
  | some identifier =>
    match pt with
    | .other => (.error .ptNotDict, st)
    | .dict kvs =>
      match kvs.lookup "lon", kvs.lookup "lat" with
      | none, _ => (.error .keyError, st)
      | some _, none => (.error .keyError, st)
      | some lonq, some latq =>
        let p := getLookupInfo ds identifier st
        selQuery ds p.1 lonq latq wrap_lon p.2


/-! ### Concrete grids used in witnesses and counterexamples -/

/-- A 2x2 grid, identifier "danra", with dimension order `(y, x)` (so the
row-major flattening has x fast-varying). -/
def dsA : Dataset where
  suite_name := some "danra"
  dimsXY := false
  lon := { d1 := 2, d2 := 2, entries := [[0, 1], [2, 3]], hlen := rfl, hrow := by decide }
  lat := { d1 := 2, d2 := 2, entries := [[10, 11], [12, 13]], hlen := rfl, hrow := by decide }
  hd1 := rfl
  hd2 := rfl

/-- The same grid with dimension order `(x, y)` (y fast-varying in the
row-major flattening), as assumed by the spec text. -/
def dsB : Dataset := { dsA with dimsXY := true }

/-- The same grid with no `suite_name` attribute. -/
def dsNoId : Dataset := { dsA with suite_name := none }

/-- A 1x3 grid, identifier "dini", with lon bounds `(-10, 10)`, dimension
order `(y, x)`. -/
def dsC : Dataset where
  suite_name := some "dini"
  dimsXY := false
  lon := { d1 := 1, d2 := 3, entries := [[-10, 0, 10]], hlen := rfl, hrow := by decide }
  lat := { d1 := 1, d2 := 3, entries := [[55, 56, 57]], hlen := rfl, hrow := by decide }
  hd1 := rfl
  hd2 := rfl

/-- A grid with the same identifier "danra" and shape as `dsA` but entirely
different coordinate values. -/
def dsA2 : Dataset where
  suite_name := some "danra"
  dimsXY := false
  lon := { d1 := 2, d2 := 2, entries := [[100, 101], [102, 103]], hlen := rfl, hrow := by decide }
  lat := { d1 := 2, d2 := 2, entries := [[110, 111], [112, 113]], hlen := rfl, hrow := by decide }
  hd1 := rfl
  hd2 := rfl

/-- The cache state left behind by a first call against `dsA`: both tiers
hold the "danra" entry. -/
def stW : CacheState :=
  (sel_nearest_to_latlon_pt dsA (.dict [("lon", 1), ("lat", 11)]) true CacheState.empty).2

/-! ### Properties of the longitude-wrapping loop -/

/-- Loop invariant of `_wrap_lon`: on a normal return, the returned longitude
and offset differ from the entry state by the same amount, the longitude is
within bounds, and the offset moved by a multiple of 360. -/
theorem wrapLonGo_ok_inv (a b : ℚ) :
    ∀ (n : Nat) (lon rot w off : ℚ),
      wrapLonGo a b n lon rot = some (.ok (w, off)) →
      w - off = lon - rot ∧ a ≤ w ∧ w ≤ b ∧ ∃ z : ℤ, off - rot = 360 * z := by
  intro n
  induction n with
  | zero => intro lon rot w off h; simp [wrapLonGo] at h
  | succ n ih =>
    intro lon rot w off h
    simp only [wrapLonGo] at h
    by_cases hc : lon < a ∨ b < lon
    · rw [if_pos hc] at h
      by_cases hla : lon < a
      · rw [if_pos hla] at h
        by_cases hr : rot < 0
        · rw [if_pos hr] at h; simp at h
        · rw [if_neg hr] at h
          obtain ⟨h1, h2, h3, z, hz⟩ := ih _ _ _ _ h
          refine ⟨by linarith, h2, h3, z + 1, ?_⟩
          push_cast
          linarith
      · rw [if_neg hla] at h
        by_cases hr : 0 < rot
        · rw [if_pos hr] at h; simp at h
        · rw [if_neg hr] at h
          obtain ⟨h1, h2, h3, z, hz⟩ := ih _ _ _ _ h
          refine ⟨by linarith, h2, h3, z - 1, ?_⟩
          push_cast
          linarith
    · rw [if_neg hc] at h
      push_neg at hc
      simp only [Option.some.injEq, Except.ok.injEq, Prod.mk.injEq] at h
      obtain ⟨hw, ho⟩ := h
      subst hw; subst ho
      exact ⟨by ring, hc.1, hc.2, 0, by ring⟩

/-- The only error the loop of `_wrap_lon` can produce is its ValueError. -/
theorem wrapLonGo_error_eq (a b : ℚ) :
    ∀ (n : Nat) (lon rot : ℚ) (e : PyErr),
      wrapLonGo a b n lon rot = some (.error e) → e = .wrapOutOfBounds := by
  intro n
  induction n with
  | zero => intro lon rot e h; simp [wrapLonGo] at h
  | succ n ih =>
    intro lon rot e h
    simp only [wrapLonGo] at h
    by_cases hc : lon < a ∨ b < lon
    · rw [if_pos hc] at h
      by_cases hla : lon < a
      · rw [if_pos hla] at h
        by_cases hr : rot < 0
        · rw [if_pos hr] at h
          simp only [Option.some.injEq, Except.error.injEq] at h
          exact h.symm
        · rw [if_neg hr] at h; exact ih _ _ _ h
      · rw [if_neg hla] at h
        by_cases hr : 0 < rot
        · rw [if_pos hr] at h
          simp only [Option.some.injEq, Except.error.injEq] at h
          exact h.symm
        · rw [if_neg hr] at h; exact ih _ _ _ h
    · rw [if_neg hc] at h; simp at h

/-- Running the loop through a phase of upward 360-degree corrections. -/
theorem wrapLonGo_ascend (a b : ℚ) :
    ∀ (n : Nat), ∀ (f : Nat) (lon rot : ℚ), 0 ≤ rot →
      (∀ m : Nat, m < n → lon + 360 * (m : ℚ) < a) →
      wrapLonGo a b (n + f) lon rot
        = wrapLonGo a b f (lon + 360 * (n : ℚ)) (rot + 360 * (n : ℚ)) := by
  intro n
  induction n with
  | zero => intro f lon rot _ _; simp
  | succ n ih =>
    intro f lon rot hrot hm
    have h0 : lon < a := by
      have := hm 0 (Nat.succ_pos n)
      simpa using this
    have hstep : wrapLonGo a b (n + 1 + f) lon rot
        = wrapLonGo a b (n + f) (lon + 360) (rot + 360) := by
      have he : n + 1 + f = (n + f) + 1 := by omega
      rw [he]
      simp only [wrapLonGo]
      rw [if_pos (Or.inl h0), if_pos h0, if_neg (not_lt.mpr hrot)]
    rw [hstep]
    rw [ih f (lon + 360) (rot + 360) (by linarith)
      (fun m hm' => by
        have := hm (m + 1) (by omega)
        push_cast at this ⊢
        linarith)]
    have e1 : lon + 360 + 360 * (n : ℚ) = lon + 360 * ((n : ℚ) + 1) := by ring
    have e2 : rot + 360 + 360 * (n : ℚ) = rot + 360 * ((n : ℚ) + 1) := by ring
    rw [e1, e2]
    push_cast
    ring_nf

/-- Running the loop through a phase of downward 360-degree corrections. -/
theorem wrapLonGo_descend (a b : ℚ) :
    ∀ (n : Nat), ∀ (f : Nat) (lon rot : ℚ), rot ≤ 0 →
      (∀ m : Nat, m < n → a ≤ lon - 360 * (m : ℚ) ∧ b < lon - 360 * (m : ℚ)) →
      wrapLonGo a b (n + f) lon rot
        = wrapLonGo a b f (lon - 360 * (n : ℚ)) (rot - 360 * (n : ℚ)) := by
  intro n
  induction n with
  | zero => intro f lon rot _ _; simp
  | succ n ih =>
    intro f lon rot hrot hm
    have h0 : a ≤ lon ∧ b < lon := by
      have := hm 0 (Nat.succ_pos n)
      simpa using this
    have hstep : wrapLonGo a b (n + 1 + f) lon rot
        = wrapLonGo a b (n + f) (lon - 360) (rot - 360) := by
      have he : n + 1 + f = (n + f) + 1 := by omega
      rw [he]
      simp only [wrapLonGo]
      rw [if_pos (Or.inr h0.2), if_neg (not_lt.mpr h0.1), if_neg (not_lt.mpr hrot)]
    rw [hstep]
    rw [ih f (lon - 360) (rot - 360) (by linarith)
      (fun m hm' => by
        have := hm (m + 1) (by omega)
        push_cast at this ⊢
        constructor <;> linarith)]
    have e1 : lon - 360 - 360 * (n : ℚ) = lon - 360 * ((n : ℚ) + 1) := by ring
    have e2 : rot - 360 - 360 * (n : ℚ) = rot - 360 * ((n : ℚ) + 1) := by ring
    rw [e1, e2]
    push_cast
    ring_nf

/-- Step count for a value below the lower bound: every intermediate upward
step stays below `a`, the final one reaches at least `a`, and at least one
step is needed. -/
theorem wrapSteps_spec_lt {a lon : ℚ} (h : lon < a) :
    (∀ m : Nat, m < wrapSteps (a - lon) → lon + 360 * (m : ℚ) < a) ∧
    a ≤ lon + 360 * (wrapSteps (a - lon) : ℚ) ∧ 1 ≤ wrapSteps (a - lon) := by
  refine ⟨?_, ?_, ?_⟩
  · intro m hm
    have h1 : (m : ℤ) < Int.ceil ((a - lon) / 360) := Int.lt_toNat.mp hm
    have h2 : (m : ℚ) < (a - lon) / 360 := by exact_mod_cast Int.lt_ceil.mp h1
    have h3 : (m : ℚ) * 360 < a - lon := (lt_div_iff₀ (by norm_num)).mp h2
    linarith
  · have h1 : (a - lon) / 360 ≤ (Int.ceil ((a - lon) / 360) : ℚ) := Int.le_ceil _
    have h2 : (Int.ceil ((a - lon) / 360) : ℤ) ≤ (wrapSteps (a - lon) : ℤ) :=
      Int.self_le_toNat _
    have h3 : (a - lon) / 360 ≤ (wrapSteps (a - lon) : ℚ) := by
      refine le_trans h1 ?_
      exact_mod_cast h2
    have h4 : a - lon ≤ (wrapSteps (a - lon) : ℚ) * 360 := (div_le_iff₀ (by norm_num)).mp h3
    linarith
  · have h1 : (0 : ℚ) < (a - lon) / 360 := div_pos (by linarith) (by norm_num)
    have h2 : (0 : ℤ) < Int.ceil ((a - lon) / 360) := Int.ceil_pos.mpr h1
    exact Int.lt_toNat.mpr (by exact_mod_cast h2)

/-- Step count for a value above the upper bound, mirror image. -/
theorem wrapSteps_spec_gt {b lon : ℚ} (h : b < lon) :
    (∀ m : Nat, m < wrapSteps (lon - b) → b < lon - 360 * (m : ℚ)) ∧
    lon - 360 * (wrapSteps (lon - b) : ℚ) ≤ b ∧ 1 ≤ wrapSteps (lon - b) := by
  refine ⟨?_, ?_, ?_⟩
  · intro m hm
    have h1 : (m : ℤ) < Int.ceil ((lon - b) / 360) := Int.lt_toNat.mp hm
    have h2 : (m : ℚ) < (lon - b) / 360 := by exact_mod_cast Int.lt_ceil.mp h1
    have h3 : (m : ℚ) * 360 < lon - b := (lt_div_iff₀ (by norm_num)).mp h2
    linarith
  · have h1 : (lon - b) / 360 ≤ (Int.ceil ((lon - b) / 360) : ℚ) := Int.le_ceil _
    have h2 : (Int.ceil ((lon - b) / 360) : ℤ) ≤ (wrapSteps (lon - b) : ℤ) :=
      Int.self_le_toNat _
    have h3 : (lon - b) / 360 ≤ (wrapSteps (lon - b) : ℚ) := by
      refine le_trans h1 ?_
      exact_mod_cast h2
    have h4 : lon - b ≤ (wrapSteps (lon - b) : ℚ) * 360 := (div_le_iff₀ (by norm_num)).mp h3
    linarith
  · have h1 : (0 : ℚ) < (lon - b) / 360 := div_pos (by linarith) (by norm_num)
    have h2 : (0 : ℤ) < Int.ceil ((lon - b) / 360) := Int.ceil_pos.mpr h1
    exact Int.lt_toNat.mpr (by exact_mod_cast h2)

/-- C3: on every successful `_wrap_lon` call, the returned wrapped longitude
satisfies `wrapped - offset = original`, and the offset (the net applied
rotation) is a multiple of 360, so `wrapped` is congruent to the original
longitude modulo 360. -/
theorem C3_wrap_congruence (lon a b w off : ℚ)
    (h : _wrap_lon lon a b = .ok (w, off)) :
    w - off = lon ∧ ∃ z : ℤ, off = 360 * z ∧ w - lon = 360 * z := by
  unfold _wrap_lon at h
  rcases hgo : wrapLonGo a b (fuelFor lon a b) lon 0 with _ | r
  · rw [hgo] at h; simp [Option.getD] at h
  · rw [hgo] at h
    simp only [Option.getD] at h
    subst h
    obtain ⟨h1, _, _, z, hz⟩ := wrapLonGo_ok_inv a b _ lon 0 w off hgo
    exact ⟨by linarith, z, by linarith, by linarith⟩

/-- Witness for C3 at `_wrap_lon(365, (0, 10))`, which wraps down once to 5
with offset -360. -/
theorem C3_wrap_congruence_witness :
    (5 : ℚ) - (-360) = 365 ∧ ∃ z : ℤ, (-360 : ℚ) = 360 * z ∧ (5 : ℚ) - 365 = 360 * z :=
  C3_wrap_congruence 365 0 10 5 (-360) (by decide)

/-- Counterexample to C4: at bounds `(0, 360)`, which span exactly 360
degrees, the longitude `-720` is wrapped successfully but with net offset
720, i.e. two upward 360-degree wraps were applied, where the claim allows
at most one 360-degree wrap in either direction. -/
theorem C4_cex_two_wraps :
    _wrap_lon (-720) 0 360 = .ok (0, 720) ∧ (360 : ℚ) - 0 = 360 ∧ ¬((720 : ℚ) ≤ 360) := by
  refine ⟨by decide, by norm_num, by norm_num⟩

/-- C4 amended: for bounds spanning at least 360 degrees the loop of
`_wrap_lon` terminates within the computed fuel, without raising, and
returns a longitude within the bounds; a value already within bounds is
returned unchanged with offset 0; and when the bounds span exactly 360
degrees AND the value lies within 360 degrees of the bounds, the net offset
is at most one 360-degree wrap in either direction.  (The original claim
asserted the one-wrap bound for every longitude; `C4_cex_two_wraps` refutes
that.) -/
theorem C4_wrap_terminates (a b lon : ℚ) (hspan : 360 ≤ b - a) :
    ∃ w off : ℚ,
      wrapLonGo a b (fuelFor lon a b) lon 0 = some (.ok (w, off)) ∧
      a ≤ w ∧ w ≤ b ∧
      (a ≤ lon → lon ≤ b → w = lon ∧ off = 0) ∧
      (b - a = 360 → a - 360 ≤ lon → lon ≤ b + 360 → -360 ≤ off ∧ off ≤ 360) := by
  by_cases hla : lon < a
  · obtain ⟨hints, hge, hpos⟩ := wrapSteps_spec_lt hla
    set n := wrapSteps (a - lon) with hn
    have hcast : ((n - 1 : Nat) : ℚ) = (n : ℚ) - 1 := by
      push_cast [Nat.cast_sub hpos]
      ring
    have hub : lon + 360 * (n : ℚ) ≤ b := by
      have hlast := hints (n - 1) (by omega)
      rw [hcast] at hlast
      linarith
    have hfuel : fuelFor lon a b = n + (wrapSteps (lon - b) + 1) := by
      rw [fuelFor]; omega
    have hrun : wrapLonGo a b (fuelFor lon a b) lon 0
        = some (.ok (lon + 360 * (n : ℚ), 0 + 360 * (n : ℚ))) := by
      rw [hfuel, wrapLonGo_ascend a b n _ lon 0 le_rfl hints]
      simp only [wrapLonGo]
      rw [if_neg (by rintro (h | h); exacts [absurd hge (not_le.mpr h), absurd hub (not_le.mpr h)])]
    refine ⟨lon + 360 * (n : ℚ), 0 + 360 * (n : ℚ), hrun, hge, hub, ?_, ?_⟩
    · intro h1 _
      exact absurd h1 (not_le.mpr hla)
    · intro _ hlow _
      have hn1 : n ≤ 1 := by
        rw [hn]
        unfold wrapSteps
        refine Int.toNat_le.mpr (Int.ceil_le.mpr ?_)
        push_cast
        rw [div_le_one (by norm_num)]
        linarith
      have hn1q : (n : ℚ) ≤ 1 := by exact_mod_cast hn1
      have hn0q : (0 : ℚ) ≤ (n : ℚ) := by positivity
      constructor <;> linarith
  · by_cases hgb : b < lon
    · obtain ⟨hints, hle, hpos⟩ := wrapSteps_spec_gt hgb
      set n := wrapSteps (lon - b) with hn
      have hcast : ((n - 1 : Nat) : ℚ) = (n : ℚ) - 1 := by
        push_cast [Nat.cast_sub hpos]
        ring
      have hlb : a ≤ lon - 360 * (n : ℚ) := by
        have hlast := hints (n - 1) (by omega)
        rw [hcast] at hlast
        linarith
      have hbox : ∀ m : Nat, m < n → a ≤ lon - 360 * (m : ℚ) ∧ b < lon - 360 * (m : ℚ) := by
        intro m hm
        have h2 := hints m hm
        exact ⟨by linarith, h2⟩
      have hfuel : fuelFor lon a b = n + (wrapSteps (a - lon) + 1) := by
        rw [fuelFor]; omega
      have hrun : wrapLonGo a b (fuelFor lon a b) lon 0
          = some (.ok (lon - 360 * (n : ℚ), 0 - 360 * (n : ℚ))) := by
        rw [hfuel, wrapLonGo_descend a b n _ lon 0 le_rfl hbox]
        simp only [wrapLonGo]
        rw [if_neg (by rintro (h | h); exacts [absurd hlb (not_le.mpr h), absurd hle (not_le.mpr h)])]
      refine ⟨lon - 360 * (n : ℚ), 0 - 360 * (n : ℚ), hrun, hlb, hle, ?_, ?_⟩
      · intro _ h2
        exact absurd h2 (not_le.mpr hgb)
      · intro _ _ hhigh
        have hn1 : n ≤ 1 := by
          rw [hn]
          unfold wrapSteps
          refine Int.toNat_le.mpr (Int.ceil_le.mpr ?_)
          push_cast
          rw [div_le_one (by norm_num)]
          linarith
        have hn1q : (n : ℚ) ≤ 1 := by exact_mod_cast hn1
        have hn0q : (0 : ℚ) ≤ (n : ℚ) := by positivity
        constructor <;> linarith
    · have ha : a ≤ lon := not_lt.mp hla
      have hb : lon ≤ b := not_lt.mp hgb
      have hrun : wrapLonGo a b (fuelFor lon a b) lon 0 = some (.ok (lon, 0)) := by
        rw [show fuelFor lon a b = (wrapSteps (a - lon) + wrapSteps (lon - b)) + 1 from rfl]
        simp only [wrapLonGo]
        rw [if_neg (by rintro (h | h); exacts [absurd ha (not_le.mpr h), absurd hb (not_le.mpr h)])]
      exact ⟨lon, 0, hrun, ha, hb, fun _ _ => ⟨rfl, rfl⟩, fun _ _ _ => by norm_num⟩

/-- Witness for the amended C4 at bounds `(0, 360)` and longitude 5. -/
theorem C4_wrap_terminates_witness :
    ∃ w off : ℚ,
      wrapLonGo 0 360 (fuelFor 5 0 360) 5 0 = some (.ok (w, off)) ∧
      (0 : ℚ) ≤ w ∧ w ≤ 360 ∧
      ((0 : ℚ) ≤ 5 → (5 : ℚ) ≤ 360 → w = 5 ∧ off = 0) ∧
      ((360 : ℚ) - 0 = 360 → (0 : ℚ) - 360 ≤ 5 → (5 : ℚ) ≤ 360 + 360 → -360 ≤ off ∧ off ≤ 360) :=
  C4_wrap_terminates 0 360 5 (by norm_num)

/-- C5: when no 360-degree multiple places the longitude within the bounds
(so wrapping would need corrections in both directions), `_wrap_lon` fails
with its ValueError (the spec's `OutOfBoundsError`) instead of looping or
returning an out-of-bounds value. -/
theorem C5_wrap_mixed_directions_fail (a b lon : ℚ) (hspan : b - a < 360)
    (hout : ∀ z : ℤ, lon + 360 * (z : ℚ) < a ∨ b < lon + 360 * (z : ℚ)) :
    _wrap_lon lon a b = .error .wrapOutOfBounds := by
  have hrun : wrapLonGo a b (fuelFor lon a b) lon 0 = some (.error .wrapOutOfBounds) := by
    by_cases hla : lon < a
    · obtain ⟨hints, hge, hpos⟩ := wrapSteps_spec_lt hla
      set n := wrapSteps (a - lon) with hn
      have hfuel : fuelFor lon a b = n + (wrapSteps (lon - b) + 1) := by
        rw [fuelFor]; omega
      rw [hfuel, wrapLonGo_ascend a b n _ lon 0 le_rfl hints]
      have hb : b < lon + 360 * (n : ℚ) := by
        rcases hout (n : ℤ) with h | h
        · exfalso
          push_cast at h
          linarith
        · push_cast at h
          linarith
      have hrotpos : (0 : ℚ) < 0 + 360 * (n : ℚ) := by
        have : (1 : ℚ) ≤ (n : ℚ) := by exact_mod_cast hpos
        linarith
      simp only [wrapLonGo]
      rw [if_pos (Or.inr hb), if_neg (not_lt.mpr hge), if_pos hrotpos]
    · have ha : a ≤ lon := not_lt.mp hla
      have hbl : b < lon := by
        rcases hout 0 with h | h
        · exfalso
          push_cast at h
          linarith
        · push_cast at h
          linarith
      set q : ℤ := Int.floor ((lon - a) / 360) with hq
      have hq0 : 0 ≤ q := Int.floor_nonneg.mpr (div_nonneg (by linarith) (by norm_num))
      set m : Nat := q.toNat + 1 with hm
      have hbox : ∀ k : Nat, k < m → a ≤ lon - 360 * (k : ℚ) ∧ b < lon - 360 * (k : ℚ) := by
        intro k hk
        have hk' : (k : ℤ) ≤ q := by omega
        have h1 : (k : ℚ) ≤ (q : ℚ) := by exact_mod_cast hk'
        have h2 : (q : ℚ) ≤ (lon - a) / 360 := Int.floor_le _
        have h3 : (k : ℚ) * 360 ≤ lon - a := (le_div_iff₀ (by norm_num)).mp (le_trans h1 h2)
        have hA : a ≤ lon - 360 * (k : ℚ) := by linarith
        refine ⟨hA, ?_⟩
        rcases hout (-(k : ℤ)) with h | h
        · exfalso
          push_cast at h
          linarith
        · push_cast at h
          linarith
      have hfin : lon - 360 * (m : ℚ) < a := by
        have h1 : (lon - a) / 360 < (q : ℚ) + 1 := Int.lt_floor_add_one _
        have h2 : ((m : ℕ) : ℚ) = (q : ℚ) + 1 := by
          have h0 : ((q.toNat : ℕ) : ℤ) = q := Int.toNat_of_nonneg hq0
          have h0q : ((q.toNat : ℕ) : ℚ) = (q : ℚ) := by exact_mod_cast h0
          rw [hm]
          push_cast
          rw [h0q]
        have h3 : lon - a < ((q : ℚ) + 1) * 360 := (div_lt_iff₀ (by norm_num)).mp h1
        rw [h2]
        linarith
      have hmle : m ≤ wrapSteps (lon - b) := by
        by_contra hcon
        push_neg at hcon
        have hcle : Int.ceil ((lon - b) / 360) ≤ q := by
          have h1 : Int.toNat (Int.ceil ((lon - b) / 360)) ≤ q.toNat := by
            unfold wrapSteps at hcon
            omega
          omega
        have h2 : (lon - b) / 360 ≤ (q : ℚ) :=
          le_trans (Int.le_ceil _) (by exact_mod_cast hcle)
        have h3 : (q : ℚ) ≤ (lon - a) / 360 := Int.floor_le _
        have h4 : lon - b ≤ (q : ℚ) * 360 := (div_le_iff₀ (by norm_num)).mp h2
        have h5 : (q : ℚ) * 360 ≤ lon - a := (le_div_iff₀ (by norm_num)).mp h3
        rcases hout (-q) with h | h
        · push_cast at h
          linarith
        · push_cast at h
          linarith
      have hmfuel : m ≤ fuelFor lon a b := by
        rw [fuelFor]
        omega
      obtain ⟨f, hf1, hf2⟩ : ∃ f : Nat, 1 ≤ f ∧ fuelFor lon a b = m + f := by
        refine ⟨fuelFor lon a b - m, ?_, ?_⟩
        · rw [fuelFor]
          omega
        · omega
      rw [hf2, wrapLonGo_descend a b m f lon 0 le_rfl hbox]
      obtain ⟨g, rfl⟩ : ∃ g, f = g + 1 := ⟨f - 1, by omega⟩
      have hrotneg : 0 - 360 * (m : ℚ) < 0 := by
        have h1 : (1 : ℚ) ≤ (m : ℚ) := by exact_mod_cast (by omega : 1 ≤ m)
        linarith
      simp only [wrapLonGo]
      rw [if_pos (Or.inl hfin), if_pos hfin, if_pos hrotneg]
  unfold _wrap_lon
  rw [hrun]
  rfl

/-- Witness for C5 at bounds `(0, 10)` (spanning less than 360 degrees) and
longitude 20, which no multiple of 360 can bring into the bounds. -/
theorem C5_wrap_mixed_directions_fail_witness :
    _wrap_lon 20 0 10 = .error .wrapOutOfBounds :=
  C5_wrap_mixed_directions_fail 0 10 20 (by norm_num)
    (fun z => by
      rcases le_or_lt z (-1) with hz | hz
      · left
        have h1 : (z : ℚ) ≤ -1 := by exact_mod_cast hz
        linarith
      · right
        have h1 : (0 : ℚ) ≤ (z : ℚ) := by
          exact_mod_cast (by omega : (0 : ℤ) ≤ z)
        linarith)

/-! ### Row-major flattening and the flat-index inversion -/

/-- Indexing the row-major flattening of a rectangular list of rows of width
`w` at flat position `k` reads row `k / w`, column `k % w`. -/
theorem flatten_get? (w : Nat) (hw : 0 < w) :
    ∀ (ls : List (List ℚ)), (∀ r ∈ ls, r.length = w) → ∀ k : Nat,
      ls.flatten.get? k = (ls.get? (k / w)).bind (fun row => row.get? (k % w)) := by
  intro ls
  induction ls with
  | nil => intro _ k; simp
  | cons r rs ih =>
    intro hr k
    have hrw : r.length = w := hr r (by simp)
    have hrs : ∀ t ∈ rs, t.length = w := fun t ht => hr t (by simp [ht])
    by_cases hk : k < w
    · rw [List.flatten_cons, List.get?_append (by rw [hrw]; exact hk)]
      rw [Nat.div_eq_of_lt hk, Nat.mod_eq_of_lt hk]
      simp
    · have hk' : w ≤ k := not_lt.mp hk
      rw [List.flatten_cons, List.get?_append_right (by rw [hrw]; exact hk')]
      rw [hrw, ih hrs (k - w)]
      rw [Nat.div_eq_sub_div hw hk', Nat.mod_eq_sub_mod hk']
      simp

/-- Indexing a zip gives the indexings of the two components. -/
theorem zip_get? :
    ∀ (as bs : List ℚ) (k : Nat) (p : ℚ × ℚ),
      (as.zip bs).get? k = some p → as.get? k = some p.1 ∧ bs.get? k = some p.2 := by
  intro as
  induction as with
  | nil => intro bs k p h; simp [List.zip] at h
  | cons a as ih =>
    intro bs k p h
    cases bs with
    | nil => simp [List.zip] at h
    | cons b bs =>
      cases k with
      | zero =>
        simp only [List.zip_cons_cons, List.get?] at h
        injection h with h
        subst h
        exact ⟨rfl, rfl⟩
      | succ k =>
        simp only [List.zip_cons_cons, List.get?] at h
        exact ih bs k p h

/-- Length of the row-major flattening of a rectangular list of rows. -/
theorem flatten_length (w : Nat) :
    ∀ ls : List (List ℚ), (∀ r ∈ ls, r.length = w) → ls.flatten.length = ls.length * w := by
  intro ls
  induction ls with
  | nil => simp
  | cons r rs ih =>
    intro hr
    have hrw : r.length = w := hr r (by simp)
    have hrs : ∀ t ∈ rs, t.length = w := fun t ht => hr t (by simp [ht])
    rw [List.flatten_cons, List.length_append, hrw, ih hrs, List.length_cons]
    ring

/-- Counterexample to C2: for the grid `dsB`, whose arrays are stored with
shape `(nx, ny)` and dimension order `(x, y)` — so the row-major flattening
has y fast-varying, exactly the claim's premise — the query `(1, 11)` is
nearest to flat index 1, whose flattened (lon, lat) pair is `(1, 11)`; but
slicing at `(x = 1 % ny, y = 1 / ny) = (1, 0)` returns the cell with
`(lon, lat) = (2, 12)`, a transposed cell, not the flattened pair.  (The
query longitude is within bounds, so no wrap-offset correction applies.) -/
theorem C2_cex_transposed_cell :
    queryNearest (buildTree dsB).pts (1, 11) = 1 ∧
    (buildTree dsB).pts.get? 1 = some (1, 11) ∧
    (sel_nearest_to_latlon_pt dsB (.dict [("lon", 1), ("lat", 11)]) true CacheState.empty).1
      = .ok { x := 1, y := 0, lonVal := 2, latVal := 12 } ∧
    ¬((2 : ℚ) = 1 ∧ (12 : ℚ) = 11) := by
  exact ⟨by decide, by decide, by decide, by decide⟩

/-- C2 amended: the round-trip holds when the arrays' dimension order is
`(y, x)` — x, not y, the fast-varying dimension of the row-major
flattening.  Then inverting a flat index `k` of the build-time flattening
via `i = k mod ny, j = k div ny` and slicing at `(x = i, y = j)` reads back
exactly the k-th flattened (lon, lat) pair.  (`C2_cex_transposed_cell`
refutes the claim for the order `(x, y)` stated in the spec.) -/
theorem C2_inversion_roundtrip (ds : Dataset) (hdims : ds.dimsXY = false)
    (k : Nat) (p : ℚ × ℚ) (hp : (buildTree ds).pts.get? k = some p) :
    ds.iselLon (k % ds.lon.d2) (k / ds.lon.d2) = some p.1 ∧
    ds.iselLat (k % ds.lon.d2) (k / ds.lon.d2) = some p.2 := by
  obtain ⟨hlon, hlat⟩ :=
    zip_get? ds.lon.flat ds.lat.flat k p (by simpa [buildTree] using hp)
  obtain ⟨hklt, -⟩ := List.get?_eq_some.mp hlon
  have hflen : ds.lon.flat.length = ds.lon.d1 * ds.lon.d2 := by
    rw [Arr2.flat, flatten_length ds.lon.d2 ds.lon.entries ds.lon.hrow, ds.lon.hlen]
  have hw : 0 < ds.lon.d2 := by
    rcases Nat.eq_zero_or_pos ds.lon.d2 with h0 | h
    · rw [hflen, h0, Nat.mul_zero] at hklt
      omega
    · exact h
  constructor
  · rw [Dataset.iselLon, hdims]
    simp only [Bool.false_eq_true, if_false]
    rw [Arr2.at?, ← flatten_get? ds.lon.d2 hw ds.lon.entries ds.lon.hrow k]
    simpa [Arr2.flat] using hlon
  · rw [Dataset.iselLat, hdims]
    simp only [Bool.false_eq_true, if_false]
    have hrow' : ∀ r ∈ ds.lat.entries, r.length = ds.lon.d2 :=
      fun r hr => (ds.lat.hrow r hr).trans ds.hd2.symm
    rw [Arr2.at?, ← flatten_get? ds.lon.d2 hw ds.lat.entries hrow' k]
    simpa [Arr2.flat] using hlat

/-- Witness for the amended C2 on the grid `dsA` (dimension order `(y, x)`)
at flat index 1. -/
theorem C2_inversion_roundtrip_witness :
    dsA.iselLon (1 % dsA.lon.d2) (1 / dsA.lon.d2) = some ((1 : ℚ), (11 : ℚ)).1 ∧
    dsA.iselLat (1 % dsA.lon.d2) (1 / dsA.lon.d2) = some ((1 : ℚ), (11 : ℚ)).2 :=
  C2_inversion_roundtrip dsA rfl 1 (1, 11) (by decide)

/-! ### The query-and-slice function -/

/-- C1 (code bug): with `wrap_lon=False` and a query point whose longitude
and latitude both lie within the grid's bounds, the call does not return the
nearest grid cell: it raises `UnboundLocalError`, because the variable
`lon_wrapped` used at utils.py:132 is assigned only in the `wrap_lon=True`
branch at utils.py:118.  Evaluated here on the grid `dsA` (lon bounds
`(0, 3)`, lat bounds `(10, 13)`) and the in-bounds query
`{lon: 1, lat: 11}`. -/
theorem C1_wrap_false_unbound_local :
    (sel_nearest_to_latlon_pt dsA (.dict [("lon", 1), ("lat", 11)]) false CacheState.empty).1
      = .error .unboundLocalLonWrapped := by
  decide

/-- Every run of the wrapping function that fails, fails with its own
ValueError. -/
theorem wrap_lon_error_eq (lon a b : ℚ) (e : PyErr)
    (h : _wrap_lon lon a b = .error e) : e = .wrapOutOfBounds := by
  unfold _wrap_lon at h
  rcases hgo : wrapLonGo a b (fuelFor lon a b) lon 0 with _ | r
  · rw [hgo] at h
    simp only [Option.getD] at h
    injection h with h
    exact h.symm
  · rw [hgo] at h
    simp only [Option.getD] at h
    rcases r with e' | wa
    · injection h with h
      subst h
      exact wrapLonGo_error_eq a b _ lon 0 _ hgo
    · simp at h

/-- The longitude step of the query can only fail with the wrap ValueError
or the explicit longitude bounds ValueError. -/
theorem wrapOrCheck_error_cases (info : LookupInfo) (lonq : ℚ) (w : Bool) (e : PyErr)
    (h : wrapOrCheck info lonq w = .error e) :
    e = .wrapOutOfBounds ∨ e = .lonOutOfBounds := by
  unfold wrapOrCheck at h
  cases w with
  | true =>
    simp only [if_true] at h
    rcases hw : _wrap_lon lonq info.lonBounds.1 info.lonBounds.2 with e' | wa
    · rw [hw] at h
      injection h with h
      subst h
      exact Or.inl (wrap_lon_error_eq _ _ _ _ hw)
    · rw [hw] at h
      simp at h
  | false =>
    simp only [if_false, Bool.false_eq_true] at h
    split at h
    · injection h with h
      exact Or.inr h.symm
    · simp at h

/-- The query-and-slice tail never changes the cache state. -/
theorem selQuery_snd (ds : Dataset) (info : LookupInfo) (lonq latq : ℚ) (w : Bool)
    (st1 : CacheState) : (selQuery ds info lonq latq w st1).2 = st1 := by
  unfold selQuery
  rcases hw : wrapOrCheck info lonq w with e | w?
  · rfl
  · dsimp only
    split
    · rfl
    · rcases w? with _ | wa
      · rfl
      · dsimp only
        split
        · rfl
        · rfl
        · rfl

/-- A memory-cache hit returns the stored entry and leaves everything
untouched. -/
theorem getLookupInfo_memHit (ds : Dataset) (ident : String) (st : CacheState)
    (info : LookupInfo) (h : st.mem.lookup ident = some info) :
    getLookupInfo ds ident st = (info, st) := by
  unfold getLookupInfo
  rw [h]

/-- After the cache step, the in-memory cache always holds the identifier. -/
theorem getLookupInfo_mem_isSome (ds : Dataset) (ident : String) (st : CacheState) :
    (((getLookupInfo ds ident st).2).mem.lookup ident).isSome := by
  unfold getLookupInfo
  rcases hm : st.mem.lookup ident with _ | info
  · unfold build_tree_cached
    rcases hd : st.disk.lookup ident with _ | info'
    · simp [List.lookup]
    · simp [List.lookup]
  · simp [hm]

/-- After the cache step, the durable cache holds the identifier, provided
it already did whenever the in-memory cache did (as on every state a real
process can reach, since the decorated builder persists what it builds). -/
theorem getLookupInfo_disk_isSome (ds : Dataset) (ident : String) (st : CacheState)
    (hmd : (st.mem.lookup ident).isSome → (st.disk.lookup ident).isSome) :
    (((getLookupInfo ds ident st).2).disk.lookup ident).isSome := by
  unfold getLookupInfo
  rcases hm : st.mem.lookup ident with _ | info
  · unfold build_tree_cached
    rcases hd : st.disk.lookup ident with _ | info'
    · simp [List.lookup]
    · simp [hd]
  · exact hmd (by simp [hm])

/-- C8: a dataset without the `suite_name` attribute makes
`sel_nearest_to_latlon_pt` fail at once with the spec's
`MissingIdentifierError` (the ValueError of utils.py:90), and the whole
cache state — in-memory entries, durable entries, build count, disk-read
count — is returned unchanged: the failure happens before any cache
access. -/
theorem C8_missing_identifier (ds : Dataset) (pt : PyVal) (w : Bool) (st : CacheState)
    (h : ds.suite_name = none) :
    sel_nearest_to_latlon_pt ds pt w st = (.error .missingSuiteName, st) := by
  unfold sel_nearest_to_latlon_pt
  rw [h]

/-- Witness for C8 on the grid `dsNoId` (no identifier) with a fresh cache. -/
theorem C8_missing_identifier_witness :
    sel_nearest_to_latlon_pt dsNoId (.dict [("lon", 1), ("lat", 11)]) true CacheState.empty
      = (.error .missingSuiteName, CacheState.empty) :=
  C8_missing_identifier dsNoId (.dict [("lon", 1), ("lat", 11)]) true CacheState.empty rfl

/-- C10: when a call with a valid identifier and a well-formed query point
fails with one of the out-of-bounds errors, the spatial index has already
been cached: the returned state's in-memory cache and durable cache both
hold an entry for the identifier.  The hypothesis `hmd` states that the
initial state does not hold an in-memory entry without its durable twin,
which is true of every state an actual process reaches. -/
theorem C10_cache_populated_on_oob (ds : Dataset) (ident : String)
    (kvs : List (String × ℚ)) (st : CacheState) (lonq latq : ℚ) (w : Bool) (e : PyErr)
    (hid : ds.suite_name = some ident)
    (hlon : kvs.lookup "lon" = some lonq) (hlat : kvs.lookup "lat" = some latq)
    (hmd : (st.mem.lookup ident).isSome → (st.disk.lookup ident).isSome)
    (hres : (sel_nearest_to_latlon_pt ds (.dict kvs) w st).1 = .error e)
    (he : e.isOutOfBounds = true) :
    ((sel_nearest_to_latlon_pt ds (.dict kvs) w st).2.mem.lookup ident).isSome ∧
    ((sel_nearest_to_latlon_pt ds (.dict kvs) w st).2.disk.lookup ident).isSome := by
  have hsnd : (sel_nearest_to_latlon_pt ds (.dict kvs) w st).2
      = (getLookupInfo ds ident st).2 := by
    simp only [sel_nearest_to_latlon_pt, hid, hlon, hlat]
    exact selQuery_snd _ _ _ _ _ _
  rw [hsnd]
  exact ⟨getLookupInfo_mem_isSome ds ident st, getLookupInfo_disk_isSome ds ident st hmd⟩

/-- Witness for C10: on the grid `dsA` with a fresh cache, the query
`{lon: 1, lat: 95}` is latitude-out-of-bounds (bounds `(10, 13)`), and after
the failed call both cache tiers hold the entry for "danra". -/
theorem C10_cache_populated_on_oob_witness :
    ((sel_nearest_to_latlon_pt dsA (.dict [("lon", 1), ("lat", 95)]) true
        CacheState.empty).2.mem.lookup "danra").isSome ∧
    ((sel_nearest_to_latlon_pt dsA (.dict [("lon", 1), ("lat", 95)]) true
        CacheState.empty).2.disk.lookup "danra").isSome :=
  C10_cache_populated_on_oob dsA "danra" [("lon", 1), ("lat", 95)] CacheState.empty
    1 95 true .latOutOfBounds rfl (by decide) (by decide) (by decide) (by decide) (by decide)

/-- The query-and-slice tail never raises the argument-validation errors:
its failures are bounds errors, the unbound-local error, or an index
error. -/
theorem selQuery_no_arg_error (ds : Dataset) (info : LookupInfo) (lonq latq : ℚ)
    (w : Bool) (st1 : CacheState) :
    (selQuery ds info lonq latq w st1).1 ≠ .error .ptNotDict ∧
    (selQuery ds info lonq latq w st1).1 ≠ .error .keyError := by
  unfold selQuery
  rcases hw : wrapOrCheck info lonq w with e | w?
  · rcases wrapOrCheck_error_cases info lonq w e hw with h | h <;>
      subst h <;> exact ⟨by simp, by simp⟩
  · dsimp only
    split
    · exact ⟨by simp, by simp⟩
    · rcases w? with _ | wa
      · exact ⟨by simp, by simp⟩
      · dsimp only
        split
        · exact ⟨by simp, by simp⟩
        · exact ⟨by simp, by simp⟩
        · exact ⟨by simp, by simp⟩

/-- Counterexample to C7: a query dict carrying an extra key beyond `lon`
and `lat` is not rejected: the claim demands `InvalidArgumentError` (the
TypeError of utils.py:93) for any mapping whose key set is not exactly
`{lon, lat}`, yet the call succeeds, because the code only checks
`isinstance(pt, dict)`. -/
theorem C7_cex_extra_key_accepted :
    (sel_nearest_to_latlon_pt dsA (.dict [("lon", 1), ("lat", 11), ("foo", 5)]) true
        CacheState.empty).1
      = .ok { x := 1, y := 0, lonVal := 1, latVal := 11 } := by
  decide

/-- C7 amended: the code validates only that `pt` is a dict.  A non-dict
fails with the TypeError (the spec's `InvalidArgumentError`); a dict missing
the `lon` or `lat` key fails with `KeyError` when the key is read — not with
the TypeError; and any dict containing both keys (extra keys included)
passes validation: the call never fails with the TypeError or a KeyError. -/
theorem C7_pt_validation (ds : Dataset) (ident : String) (st : CacheState) (w : Bool)
    (hid : ds.suite_name = some ident) :
    ((sel_nearest_to_latlon_pt ds .other w st).1 = .error .ptNotDict) ∧
    (∀ kvs : List (String × ℚ), (kvs.lookup "lon" = none ∨ kvs.lookup "lat" = none) →
      (sel_nearest_to_latlon_pt ds (.dict kvs) w st).1 = .error .keyError) ∧
    (∀ (kvs : List (String × ℚ)) (lonq latq : ℚ),
      kvs.lookup "lon" = some lonq → kvs.lookup "lat" = some latq →
      (sel_nearest_to_latlon_pt ds (.dict kvs) w st).1 ≠ .error .ptNotDict ∧
      (sel_nearest_to_latlon_pt ds (.dict kvs) w st).1 ≠ .error .keyError) := by
  refine ⟨?_, ?_, ?_⟩
  · simp [sel_nearest_to_latlon_pt, hid]
  · intro kvs hk
    rcases hk with hk | hk
    · simp [sel_nearest_to_latlon_pt, hid, hk]
    · rcases hl : kvs.lookup "lon" with _ | lonq
      · simp [sel_nearest_to_latlon_pt, hid, hl]
      · simp [sel_nearest_to_latlon_pt, hid, hl, hk]
  · intro kvs lonq latq hl hk
    have hred : (sel_nearest_to_latlon_pt ds (.dict kvs) w st).1
        = (selQuery ds (getLookupInfo ds ident st).1 lonq latq w
            (getLookupInfo ds ident st).2).1 := by
      simp [sel_nearest_to_latlon_pt, hid, hl, hk]
    rw [hred]
    exact selQuery_no_arg_error _ _ _ _ _ _

/-- Witness for the amended C7 on the grid `dsA`: a non-dict argument is
rejected with the TypeError. -/
theorem C7_pt_validation_witness :
    (sel_nearest_to_latlon_pt dsA .other true CacheState.empty).1 = .error .ptNotDict :=
  (C7_pt_validation dsA "danra" CacheState.empty true rfl).1

/-- C6: on every successful call with `wrap_lon=True`, the longitude
coordinate of the returned point equals the selected grid cell's stored
longitude minus the offset applied by wrapping (utils.py:139-140), so the
reported longitude lives in the original, unwrapped query space. -/
theorem C6_offset_correction (ds : Dataset) (ident : String) (kvs : List (String × ℚ))
    (st : CacheState) (lonq latq lw off : ℚ) (r : SelResult) (st' : CacheState)
    (hid : ds.suite_name = some ident)
    (hlon : kvs.lookup "lon" = some lonq)
    (hlat : kvs.lookup "lat" = some latq)
    (hwrap : _wrap_lon lonq (getLookupInfo ds ident st).1.lonBounds.1
        (getLookupInfo ds ident st).1.lonBounds.2 = .ok (lw, off))
    (hres : sel_nearest_to_latlon_pt ds (.dict kvs) true st = (.ok r, st')) :
    ds.iselLon r.x r.y = some (r.lonVal + off) := by
  simp only [sel_nearest_to_latlon_pt, hid, hlon, hlat] at hres
  have hwoc : wrapOrCheck (getLookupInfo ds ident st).1 lonq true
      = .ok (some (lw, off)) := by
    simp [wrapOrCheck, hwrap]
  simp only [selQuery, hwoc] at hres
  split at hres
  · simp at hres
  · split at hres
    · rename_i lonSel latSel hlonSel hlatSel
      injection hres with h1 h2
      injection h1 with h1
      subst h1
      simp only [hlonSel]
      norm_num
    · simp at hres
    · simp at hres

/-- Witness for C6 on the grid `dsC` (lon bounds `(-10, 10)`): the query
`{lon: 354, lat: 56}` wraps to -6 with offset -360; the nearest cell is
index 0 with stored lon -10, and the reported longitude is
`-10 - (-360) = 350`, back in the unwrapped query space. -/
theorem C6_offset_correction_witness :
    dsC.iselLon (0 : Nat) (0 : Nat) = some ((350 : ℚ) + (-360 : ℚ)) := by
  have h := C6_offset_correction dsC "dini" [("lon", 354), ("lat", 56)]
    CacheState.empty 354 56 (-6) (-360)
    { x := 0, y := 0, lonVal := 350, latVal := 55 }
    ((sel_nearest_to_latlon_pt dsC (.dict [("lon", 354), ("lat", 56)]) true
        CacheState.empty).2)
    rfl (by decide) (by decide) (by decide) (by decide)
  exact h

/-- Two query-and-slice runs against the same cached index and query choose
the same cell indices, whatever the datasets' own coordinate arrays hold,
as long as the shapes used for the flat-index inversion agree. -/
theorem selQuery_ok_same_cell (ds ds' : Dataset) (info : LookupInfo) (lonq latq : ℚ)
    (w : Bool) (st1 st1' : CacheState) (r r' : SelResult) (s s' : CacheState)
    (hsh : ds'.lon.d2 = ds.lon.d2)
    (h : selQuery ds info lonq latq w st1 = (.ok r, s))
    (h' : selQuery ds' info lonq latq w st1' = (.ok r', s')) :
    r.x = r'.x ∧ r.y = r'.y := by
  rcases hw : wrapOrCheck info lonq w with e | w?
  · simp [selQuery, hw] at h
  · simp only [selQuery, hw] at h h'
    by_cases hlat : latq < info.latBounds.1 ∨ info.latBounds.2 < latq
    · rw [if_pos hlat] at h
      simp at h
    · rw [if_neg hlat] at h
      rw [if_neg hlat] at h'
      rcases w? with _ | wa
      · simp at h
      · dsimp only at h h'
        rw [hsh] at h'
        split at h
        · split at h'
          · injection h with h1 hs1
            injection h' with h1' hs1'
            injection h1 with h1
            injection h1' with h1'
            subst h1
            subst h1'
            exact ⟨rfl, rfl⟩
          · simp at h'
          · simp at h'
        · simp at h
        · simp at h

/-- C9: once the in-memory cache holds an entry for an identifier, any call
with a dataset carrying that identifier leaves the whole cache state
unchanged — in particular `buildCount` and `diskReads` are unchanged, so
the build function is not invoked and the durable cache is not read — and
the nearest cell is resolved against the cached index rather than the
current dataset's coordinate arrays: two same-shape datasets with the same
identifier but different lon/lat arrays select the same cell indices
(silently stale results for the changed grid). -/
theorem C9_mem_cache_reuse (ds ds' : Dataset) (ident : String) (info : LookupInfo)
    (st : CacheState)
    (hid : ds.suite_name = some ident) (hid' : ds'.suite_name = some ident)
    (hmem : st.mem.lookup ident = some info)
    (hsh : ds'.lon.d2 = ds.lon.d2) :
    (∀ (pt : PyVal) (w : Bool), (sel_nearest_to_latlon_pt ds pt w st).2 = st) ∧
    (∀ (pt : PyVal) (w : Bool) (r r' : SelResult) (s s' : CacheState),
      sel_nearest_to_latlon_pt ds pt w st = (.ok r, s) →
      sel_nearest_to_latlon_pt ds' pt w st = (.ok r', s') →
      r.x = r'.x ∧ r.y = r'.y) := by
  have hget : getLookupInfo ds ident st = (info, st) := getLookupInfo_memHit _ _ _ _ hmem
  have hget' : getLookupInfo ds' ident st = (info, st) := getLookupInfo_memHit _ _ _ _ hmem
  constructor
  · intro pt w
    cases pt with
    | other => simp [sel_nearest_to_latlon_pt, hid]
    | dict kvs =>
      rcases hl : kvs.lookup "lon" with _ | lonq
      · simp [sel_nearest_to_latlon_pt, hid, hl]
      · rcases hk : kvs.lookup "lat" with _ | latq
        · simp [sel_nearest_to_latlon_pt, hid, hl, hk]
        · simp only [sel_nearest_to_latlon_pt, hid, hl, hk, hget]
          exact selQuery_snd _ _ _ _ _ _
  · intro pt w r r' s s' h h'
    cases pt with
    | other => simp [sel_nearest_to_latlon_pt, hid] at h
    | dict kvs =>
      rcases hl : kvs.lookup "lon" with _ | lonq
      · simp [sel_nearest_to_latlon_pt, hid, hl] at h
      · rcases hk : kvs.lookup "lat" with _ | latq
        · simp [sel_nearest_to_latlon_pt, hid, hl, hk] at h
        · simp only [sel_nearest_to_latlon_pt, hid, hid', hl, hk, hget, hget'] at h h'
          exact selQuery_ok_same_cell ds ds' info lonq latq w st st r r' s s' hsh h h'

/-- Witness for C9: after a first call populated the caches for "danra"
(state `stW`), a repeated call leaves the state untouched, and a call with
the different-valued grid `dsA2` under the same identifier picks the same
cell `(x = 1, y = 0)` chosen by the stale cached index. -/
theorem C9_mem_cache_reuse_witness :
    (sel_nearest_to_latlon_pt dsA (.dict [("lon", 1), ("lat", 11)]) true stW).2 = stW ∧
    (({ x := 1, y := 0, lonVal := 1, latVal := 11 } : SelResult).x
        = ({ x := 1, y := 0, lonVal := 101, latVal := 111 } : SelResult).x ∧
     ({ x := 1, y := 0, lonVal := 1, latVal := 11 } : SelResult).y
        = ({ x := 1, y := 0, lonVal := 101, latVal := 111 } : SelResult).y) := by
  have h := C9_mem_cache_reuse dsA dsA2 "danra" (buildTree dsA) stW rfl rfl (by decide) rfl
  exact ⟨h.1 (.dict [("lon", 1), ("lat", 11)]) true,
    h.2 (.dict [("lon", 1), ("lat", 11)]) true
      { x := 1, y := 0, lonVal := 1, latVal := 11 }
      { x := 1, y := 0, lonVal := 101, latVal := 111 }
      stW stW (by decide) (by decide)⟩
